import Mathlib

/-!
Verification of the core query engine of data_master.py (Master Wilayah
Indonesia): dataset loading and normalization, autocomplete suggestion
resolution, the hierarchical result-table filter, and the view
projector (dedup, limit, truncation flag).

The pandas DataFrame is modelled as a list of rows; each pandas column
operation used by the source is modelled by the corresponding pure
string/list operation.  String semantics are modelled over ASCII:
Python str.isdigit, str.lower, str.strip are modelled by the
decimal-digit / ASCII-lowercase / whitespace-trim functions below, and
pandas Series.str.contains is modelled as literal substring
containment, which coincides with the source behaviour exactly when
the pattern contains no regular-expression metacharacters (pandas
str.contains treats its pattern as a regex by default; all-digit
patterns, the only ones several theorems below depend on, are
metacharacter-free).
-/

/-- Python s[:n]: the first n characters of s. -/
def pyTrunc (s : String) (n : Nat) : String := ⟨s.data.take n⟩

/-- Python str.lower restricted to ASCII. -/
def pyLower (s : String) : String := ⟨s.data.map Char.toLower⟩

/-- Python str.strip: drop whitespace from both ends. -/
def pyStrip (s : String) : String :=
  ⟨((s.data.dropWhile Char.isWhitespace).reverse.dropWhile Char.isWhitespace).reverse⟩

/-- Python str.isdigit restricted to ASCII: nonempty and all decimal digits. -/
def pyIsDigit (s : String) : Bool := !s.data.isEmpty && s.data.all Char.isDigit

/-- Literal substring containment: `pat in s` in Python; models
pandas Series.str.contains for regex-metacharacter-free patterns. -/
def pyIn (pat s : String) : Bool := decide (pat.data <:+: s.data)

/-- Python str.startswith / pandas str.startswith (always literal). -/
def pyStartswith (pat s : String) : Bool := decide (pat.data <+: s.data)

/-- Python str.zfill: left-pad with '0' to width w, keeping a leading
sign character in front of the padding. -/
def pyZfill (s : String) (w : Nat) : String :=
  if w ≤ s.data.length then s
  else if s.data.headD '0' = '+' ∨ s.data.headD '0' = '-' then
    ⟨s.data.headD '0' :: (List.replicate (w - s.data.length) '0' ++ s.data.tail)⟩
  else ⟨List.replicate (w - s.data.length) '0' ++ s.data⟩

/-- One raw CSV record of master.csv, after read_csv(dtype=str).fillna(""):
the four code columns and the four name columns, all strings. -/
structure RawRow where
  kode_prov : String
  kode_kab : String
  kode_kec : String
  kode_desa : String
  nama_prov : String
  kab_nama : String
  kec_nama : String
  desa_nama : String
deriving DecidableEq

/-- One row of the in-memory df_master: the eight CSV columns after code
normalization plus the four precomputed lowercase search columns. -/
structure Row where
  kode_prov : String
  kode_kab : String
  kode_kec : String
  kode_desa : String
  nama_prov : String
  kab_nama : String
  kec_nama : String
  desa_nama : String
  search_prov : String
  search_kab : String
  search_kec : String
  search_desa : String
deriving DecidableEq

/-- Per-row normalization performed by load_data: strip+zfill each code
column to its fixed width (2, 2, 3, 3) and derive the lowercase search
columns from the name columns. -/
def loadRow (raw : RawRow) : Row :=
  { kode_prov := pyZfill (pyStrip raw.kode_prov) 2
    kode_kab := pyZfill (pyStrip raw.kode_kab) 2
    kode_kec := pyZfill (pyStrip raw.kode_kec) 3
    kode_desa := pyZfill (pyStrip raw.kode_desa) 3
    nama_prov := raw.nama_prov
    kab_nama := raw.kab_nama
    kec_nama := raw.kec_nama
    desa_nama := raw.desa_nama
    search_prov := pyLower raw.nama_prov
    search_kab := pyLower raw.kab_nama
    search_kec := pyLower raw.kec_nama
    search_desa := pyLower raw.desa_nama }

/-- load_data on an already-parsed CSV: normalize every row. -/
def load_data (raws : List RawRow) : List Row := raws.map loadRow

/-- Keep-first deduplication by key, with an accumulator of keys already
seen; models pandas drop_duplicates (which keeps the first occurrence). -/
def dedupGo {α β : Type} [DecidableEq β] (key : α → β) (seen : List β) : List α → List α
  | [] => []
  | a :: l => if key a ∈ seen then dedupGo key seen l else a :: dedupGo key (key a :: seen) l

/-- pandas drop_duplicates (keep="first") on the given key columns. -/
def pdDropDuplicates {α β : Type} [DecidableEq β] (key : α → β) (l : List α) : List α :=
  dedupGo key [] l

/-- Lexicographic less-or-equal on character lists, by code point: the
order pandas uses when sorting a string column. -/
def charListLe : List Char → List Char → Bool
  | [], _ => true
  | _ :: _, [] => false
  | a :: as, b :: bs => if a < b then true else if b < a then false else charListLe as bs

/-- Lexicographic less-or-equal on strings. -/
def strLe (a b : String) : Bool := charListLe a.data b.data

/-- Insert a (code, name) pair into a list sorted ascending by code. -/
def insertPair (x : String × String) : List (String × String) → List (String × String)
  | [] => [x]
  | y :: l => if strLe x.1 y.1 then x :: y :: l else y :: insertPair x l

/-- Insertion sort of (code, name) pairs ascending by code; models
pandas sort_values on the code column. -/
def sortByCode : List (String × String) → List (String × String)
  | [] => []
  | x :: l => insertPair x (sortByCode l)

/-- The per-level column selection of the suggestion endpoint: the code
column, the name column and the lowercase search column. -/
structure SuggestCfg where
  code : Row → String
  name : Row → String
  search : Row → String

/-- The config dict of get_cached_suggestions: maps a level name to its
columns; unknown level names map to none (dict.get). -/
def suggestConfig (level : String) : Option SuggestCfg :=
  if level = "prov" then some ⟨Row.kode_prov, Row.nama_prov, Row.search_prov⟩
  else if level = "kabupaten" then some ⟨Row.kode_kab, Row.kab_nama, Row.search_kab⟩
  else if level = "kecamatan" then some ⟨Row.kode_kec, Row.kec_nama, Row.search_kec⟩
  else if level = "desa" then some ⟨Row.kode_desa, Row.desa_nama, Row.search_desa⟩
  else none

/-- Narrowing by the prov ancestor code: exact equality when supplied,
no constraint when empty ("if prov: subset = subset[...]"). -/
def narrowProv (ds : List Row) (prov : String) : List Row :=
  if prov = "" then ds else ds.filter (fun r => r.kode_prov == prov)

/-- Narrowing by the kab ancestor code. -/
def narrowKab (ds : List Row) (kab : String) : List Row :=
  if kab = "" then ds else ds.filter (fun r => r.kode_kab == kab)

/-- Narrowing by the kec ancestor code. -/
def narrowKec (ds : List Row) (kec : String) : List Row :=
  if kec = "" then ds else ds.filter (fun r => r.kode_kec == kec)

/-- The three sequential ancestor narrowings at the top of
get_cached_suggestions. -/
def narrowByAncestors (ds : List Row) (prov kab kec : String) : List Row :=
  narrowKec (narrowKab (narrowProv ds prov) kab) kec

/-- The text-matching step of get_cached_suggestions on the already
stripped and lowercased query q: empty query passes everything through;
an all-digit query matches by containment on the code column; a
single-character query by prefix on the search column; a longer query by
containment on the search column. -/
def suggestTextFilter (cfg : SuggestCfg) (q : String) (subset : List Row) : List Row :=
  if q = "" then subset
  else if pyIsDigit q then subset.filter (fun r => pyIn q (cfg.code r))
  else if q.length = 1 then subset.filter (fun r => pyStartswith q (cfg.search r))
  else subset.filter (fun r => pyIn q (cfg.search r))

/-- The projection step of get_cached_suggestions: select the (code, name)
pair columns, drop duplicate pairs, sort ascending by code, keep the
first 20. -/
def finishSuggestions (cfg : SuggestCfg) (subset : List Row) : List (String × String) :=
  (sortByCode (pdDropDuplicates (fun p => p) (subset.map (fun r => (cfg.code r, cfg.name r))))).take 20

/-- get_cached_suggestions of data_master.py, with the global df_master
passed explicitly as ds (lru_cache memoization is behaviour-invisible
on an immutable dataset and is not modelled). -/
def get_cached_suggestions (level query prov kab kec : String) (ds : List Row) :
    List (String × String) :=
  if ds = [] then []
  else if narrowByAncestors ds prov kab kec = [] then []
  else
    match suggestConfig level with
    | none => []
    | some cfg =>
      finishSuggestions cfg (suggestTextFilter cfg (pyLower (pyStrip query)) (narrowByAncestors ds prov kab kec))

/-- apply_filter of api_search_table: empty input passes through; the
input is truncated to 50 characters; an all-digit input of exactly the
level's code width is an exact code-equality match; otherwise the
lowercased input is matched against the search column, by equality when
is_exact and by containment otherwise. -/
def applyFilter (df : List Row) (valIn : String) (isExact : Bool)
    (colCode colSearch : Row → String) (codeLen : Nat) : List Row :=
  if valIn = "" then df
  else if pyIsDigit (pyTrunc valIn 50) ∧ (pyTrunc valIn 50).length = codeLen then
    df.filter (fun r => colCode r == pyTrunc valIn 50)
  else if isExact then df.filter (fun r => colSearch r == pyLower (pyTrunc valIn 50))
  else df.filter (fun r => pyIn (pyLower (pyTrunc valIn 50)) (colSearch r))

/-- The four sequential apply_filter calls of api_search_table, in
hierarchy order with the source's widths (2, 2, 3, 3). -/
def filterChain (ds : List Row) (prov : String) (pe : Bool) (kab : String) (ke : Bool)
    (kec : String) (ce : Bool) (desa : String) (de : Bool) : List Row :=
  applyFilter
    (applyFilter
      (applyFilter
        (applyFilter ds prov pe Row.kode_prov Row.search_prov 2)
        kab ke Row.kode_kab Row.search_kab 2)
      kec ce Row.kode_kec Row.search_kec 3)
    desa de Row.kode_desa Row.search_desa 3

/-- The view-level decision of api_search_table: innermost supplied
input wins; zero inputs default to 4; expand bumps a level below 4 by
one. -/
def viewLevelOf (prov kab kec desa : String) (expand : Bool) : Nat :=
  if (if desa = "" then
        (if kec ≠ "" then 3 else if kab ≠ "" then 2 else if prov ≠ "" then 1 else 4)
      else 4) < 4 ∧ expand = true then
    (if desa = "" then
      (if kec ≠ "" then 3 else if kab ≠ "" then 2 else if prov ≠ "" then 1 else 4)
     else 4) + 1
  else
    (if desa = "" then
      (if kec ≠ "" then 3 else if kab ≠ "" then 2 else if prov ≠ "" then 1 else 4)
     else 4)

/-- The deduplication step of api_search_table: dedup on the code
columns down to the view level for levels 1-3; view level 4 leaves the
row set unchanged. -/
def projectRows (subset : List Row) (vl : Nat) : List Row :=
  if vl = 1 then pdDropDuplicates (fun r => r.kode_prov) subset
  else if vl = 2 then pdDropDuplicates (fun r => (r.kode_prov, r.kode_kab)) subset
  else if vl = 3 then pdDropDuplicates (fun r => (r.kode_prov, r.kode_kab, r.kode_kec)) subset
  else subset

/-- The result cap of api_search_table. -/
def LIMIT : Nat := 100

/-- The four observable outcomes of the /search endpoint: database not
loaded, no criteria supplied (awaiting input), filters matched nothing,
or a rendered table carrying the projected rows, the view level, the
total found before the cap, and whether the truncation banner is shown. -/
inductive SearchResult where
  | noDataset : SearchResult
  | awaitingInput : SearchResult
  | noMatches : SearchResult
  | success : List Row → Nat → Nat → Bool → SearchResult
deriving DecidableEq

/-- api_search_table of data_master.py: the empty-dataset guard, the
empty-criteria guard, the filter chain, the no-matches guard, the view
level, the dedup, and the 100-row cap with the total captured before
capping and the truncation banner shown exactly when the total exceeds
the cap. -/
def api_search_table (ds : List Row) (prov : String) (pe : Bool) (kab : String) (ke : Bool)
    (kec : String) (ce : Bool) (desa : String) (de : Bool) (expand : Bool) : SearchResult :=
  if ds = [] then .noDataset
  else if prov = "" ∧ kab = "" ∧ kec = "" ∧ desa = "" then .awaitingInput
  else if filterChain ds prov pe kab ke kec ce desa de = [] then .noMatches
  else
    .success
      ((projectRows (filterChain ds prov pe kab ke kec ce desa de)
          (viewLevelOf prov kab kec desa expand)).take LIMIT)
      (viewLevelOf prov kab kec desa expand)
      (projectRows (filterChain ds prov pe kab ke kec ce desa de)
          (viewLevelOf prov kab kec desa expand)).length
      (decide (LIMIT <
        (projectRows (filterChain ds prov pe kab ke kec ce desa de)
            (viewLevelOf prov kab kec desa expand)).length))

/-- The row list of a search outcome (empty for the three non-table
outcomes). -/
def resultRows : SearchResult → List Row
  | .success rows _ _ _ => rows
  | _ => []

/-- The view level of a search outcome (0 for non-table outcomes). -/
def resultViewLevel : SearchResult → Nat
  | .success _ vl _ _ => vl
  | _ => 0

/-- The pre-cap total of a search outcome (0 for non-table outcomes). -/
def resultTotal : SearchResult → Nat
  | .success _ _ t _ => t
  | _ => 0

/-- The truncation flag of a search outcome (false for non-table
outcomes). -/
def resultTrunc : SearchResult → Bool
  | .success _ _ _ b => b
  | _ => false

/-- A Jakarta row: province 31, regency 01, district 001, village 001. -/
def rowJakarta : Row :=
  loadRow ⟨"31", "01", "001", "001", "DKI JAKARTA", "JAKARTA SELATAN", "CILANDAK", "CILANDAK BARAT"⟩

/-- A second Jakarta row under the same province and regency. -/
def rowJakarta2 : Row :=
  loadRow ⟨"31", "01", "002", "005", "DKI JAKARTA", "JAKARTA SELATAN", "KEBAYORAN", "GANDARIA"⟩

/-- A West-Java row: province 32, regency 01, sharing the district name
CILANDAK with the Jakarta row. -/
def rowBogor : Row :=
  loadRow ⟨"32", "01", "001", "001", "JAWA BARAT", "BOGOR", "CILANDAK", "BOGOR KIDUL"⟩

/-- A West-Java row under a second regency, 02 BANDUNG. -/
def rowBandung : Row :=
  loadRow ⟨"32", "02", "003", "004", "JAWA BARAT", "BANDUNG", "COBLONG", "DAGO"⟩

/-- A province whose name contains the digit character 3. -/
def rowProv3 : Row :=
  loadRow ⟨"63", "01", "001", "001", "KALIMANTAN 3", "BANJAR", "MARTAPURA", "KERATON"⟩

/-- A two-province sample dataset. -/
def dsSample : List Row := [rowJakarta, rowJakarta2, rowBogor, rowBandung]

/-- Sample dataset for the digit-as-name filter example. -/
def dsDigits : List Row := [rowJakarta, rowProv3]

/-- A village row repeated verbatim (a duplicated CSV line). -/
def dsDup : List Row := [rowJakarta, rowJakarta]

/-- 150 distinct village rows under one province, all with a village
name containing "desa". -/
def ds150 : List Row :=
  (List.range 150).map (fun n =>
    loadRow ⟨"31", "01", "001", toString n, "DKI JAKARTA", "JAKARTA SELATAN", "CILANDAK",
      "DESA " ++ toString n⟩)

/-! Auxiliary lemmas about the string model. -/

/-- Truncation is the identity on inputs no longer than the bound. -/
theorem pyTrunc_of_le (s : String) (n : Nat) (h : s.length ≤ n) : pyTrunc s n = s := by
  unfold pyTrunc
  cases s with
  | mk data =>
    simp only [String.length] at h
    simp [List.take_of_length_le h]

/-- An all-digit string is nonempty. -/
theorem pyIsDigit_ne_empty (s : String) (h : pyIsDigit s = true) : s ≠ "" := by
  intro he
  subst he
  simp [pyIsDigit, String.data] at h

/-! Auxiliary lemmas about keep-first deduplication. -/

/-- Deduplication returns a sublist of its input elements. -/
theorem dedupGo_subset {α β : Type} [DecidableEq β] (key : α → β) :
    ∀ (seen : List β) (l : List α) (a : α), a ∈ dedupGo key seen l → a ∈ l := by
  intro seen l
  induction l generalizing seen with
  | nil => simp [dedupGo]
  | cons x xs ih =>
    intro a ha
    rw [dedupGo] at ha
    split at ha
    · exact List.mem_cons_of_mem _ (ih _ _ ha)
    · rcases List.mem_cons.mp ha with h | h
      · exact h ▸ List.mem_cons_self _ _
      · exact List.mem_cons_of_mem _ (ih _ _ h)

/-- The keys of the deduplicated list are pairwise distinct and avoid
the seen accumulator. -/
theorem dedupGo_map_key_nodup {α β : Type} [DecidableEq β] (key : α → β) :
    ∀ (seen : List β) (l : List α),
      ((dedupGo key seen l).map key).Nodup ∧ ∀ b ∈ (dedupGo key seen l).map key, b ∉ seen := by
  intro seen l
  induction l generalizing seen with
  | nil => simp [dedupGo]
  | cons x xs ih =>
    rw [dedupGo]
    split
    · exact ih _
    · rename_i h
      obtain ⟨ih1, ih2⟩ := ih (key x :: seen)
      refine ⟨?_, ?_⟩
      · simp only [List.map_cons, List.nodup_cons]
        exact ⟨fun hmem => (ih2 _ hmem) (List.mem_cons_self _ _), ih1⟩
      · intro b hb
        simp only [List.map_cons, List.mem_cons] at hb
        rcases hb with rfl | hb
        · exact h
        · exact fun hs => (ih2 _ hb) (List.mem_cons_of_mem _ hs)

/-- Membership in pandas drop_duplicates implies membership in the
original list. -/
theorem pdDropDuplicates_subset {α β : Type} [DecidableEq β] (key : α → β) (l : List α) (a : α)
    (h : a ∈ pdDropDuplicates key l) : a ∈ l :=
  dedupGo_subset key [] l a h

/-- The key column of a drop_duplicates result has no duplicates. -/
theorem pdDropDuplicates_map_key_nodup {α β : Type} [DecidableEq β] (key : α → β) (l : List α) :
    ((pdDropDuplicates key l).map key).Nodup :=
  (dedupGo_map_key_nodup key [] l).1

/-- drop_duplicates on whole elements yields a duplicate-free list. -/
theorem pdDropDuplicates_id_nodup {α : Type} [DecidableEq α] (l : List α) :
    (pdDropDuplicates (fun p => p) l).Nodup := by
  have h := pdDropDuplicates_map_key_nodup (fun p => p) l
  simpa using h

/-- Deduplication of a list all of whose keys are already seen is empty. -/
theorem dedupGo_eq_nil {α β : Type} [DecidableEq β] (key : α → β) :
    ∀ (seen : List β) (l : List α), (∀ a ∈ l, key a ∈ seen) → dedupGo key seen l = [] := by
  intro seen l
  induction l generalizing seen with
  | nil => intro _; rfl
  | cons x xs ih =>
    intro h
    rw [dedupGo, if_pos (h x (List.mem_cons_self _ _))]
    exact ih _ (fun a ha => h a (List.mem_cons_of_mem _ ha))

/-- Deduplicating a nonempty list whose key is constant leaves exactly
one element. -/
theorem pdDropDuplicates_const {α β : Type} [DecidableEq β] (key : α → β) (c : β)
    (l : List α) (hne : l ≠ []) (h : ∀ a ∈ l, key a = c) :
    (pdDropDuplicates key l).length = 1 := by
  match l with
  | [] => exact absurd rfl hne
  | x :: xs =>
    unfold pdDropDuplicates
    rw [dedupGo, if_neg (List.not_mem_nil _)]
    have hnil : dedupGo key [key x] xs = [] := by
      refine dedupGo_eq_nil key _ xs ?_
      intro a ha
      have hax : key a = key x := by
        rw [h a (List.mem_cons_of_mem _ ha), h x (List.mem_cons_self _ _)]
      rw [hax]
      exact List.mem_cons_self _ _
    rw [hnil]
    rfl

/-! Auxiliary lemmas about the lexicographic sort. -/

/-- Lexicographic less-or-equal is total. -/
theorem charListLe_total : ∀ a b, charListLe a b = true ∨ charListLe b a = true := by
  intro a
  induction a with
  | nil => intro b; left; rfl
  | cons x xs ih =>
    intro b
    cases b with
    | nil => right; rfl
    | cons y ys =>
      rcases lt_trichotomy x y with h | h | h
      · left; simp [charListLe, h]
      · subst h
        rcases ih ys with h2 | h2
        · left; simp [charListLe, lt_irrefl, h2]
        · right; simp [charListLe, lt_irrefl, h2]
      · right; simp [charListLe, h]

/-- Lexicographic less-or-equal is transitive. -/
theorem charListLe_trans :
    ∀ a b c, charListLe a b = true → charListLe b c = true → charListLe a c = true := by
  intro a
  induction a with
  | nil => intro b c _ _; rfl
  | cons x xs ih =>
    intro b c hab hbc
    cases b with
    | nil => simp [charListLe] at hab
    | cons y ys =>
      cases c with
      | nil => simp [charListLe] at hbc
      | cons z zs =>
        rcases lt_trichotomy x y with h1 | h1 | h1
        · rcases lt_trichotomy y z with h2 | h2 | h2
          · simp [charListLe, lt_trans h1 h2]
          · subst h2; simp [charListLe, h1]
          · simp [charListLe, h2, asymm h2] at hbc
        · subst h1
          rcases lt_trichotomy x z with h2 | h2 | h2
          · simp [charListLe, h2]
          · subst h2
            simp only [charListLe, lt_irrefl, if_false] at hab hbc ⊢
            exact ih ys zs hab hbc
          · simp [charListLe, h2, asymm h2] at hbc
        · simp [charListLe, h1, asymm h1] at hab

/-- String less-or-equal is total. -/
theorem strLe_total (a b : String) : strLe a b = true ∨ strLe b a = true :=
  charListLe_total a.data b.data

/-- String less-or-equal is transitive. -/
theorem strLe_trans (a b c : String) (h1 : strLe a b = true) (h2 : strLe b c = true) :
    strLe a c = true :=
  charListLe_trans a.data b.data c.data h1 h2

/-- Insertion produces a permutation of consing. -/
theorem insertPair_perm (x : String × String) :
    ∀ l, (insertPair x l).Perm (x :: l) := by
  intro l
  induction l with
  | nil => exact List.Perm.refl _
  | cons y ys ih =>
    rw [insertPair]
    split
    · exact List.Perm.refl _
    · exact (List.Perm.cons y ih).trans (List.Perm.swap x y ys)

/-- Insertion preserves sortedness by code. -/
theorem insertPair_pairwise (x : String × String) :
    ∀ l, l.Pairwise (fun a b => strLe a.1 b.1 = true) →
      (insertPair x l).Pairwise (fun a b => strLe a.1 b.1 = true) := by
  intro l
  induction l with
  | nil => intro _; exact List.pairwise_singleton _ _
  | cons y ys ih =>
    intro h
    obtain ⟨hy, hys⟩ := List.pairwise_cons.mp h
    rw [insertPair]
    split
    · rename_i hxy
      refine List.pairwise_cons.mpr ⟨?_, h⟩
      intro z hz
      rcases List.mem_cons.mp hz with rfl | hz
      · exact hxy
      · exact strLe_trans _ _ _ hxy (hy z hz)
    · rename_i hxy
      refine List.pairwise_cons.mpr ⟨?_, ih hys⟩
      intro z hz
      have hz2 := (insertPair_perm x ys).mem_iff.mp hz
      rcases List.mem_cons.mp hz2 with rfl | hz2
      · rcases strLe_total z.1 y.1 with ht | ht
        · exact absurd ht hxy
        · exact ht
      · exact hy z hz2

/-- Sorting produces a permutation of the input. -/
theorem sortByCode_perm : ∀ l, (sortByCode l).Perm l := by
  intro l
  induction l with
  | nil => exact List.Perm.refl _
  | cons x xs ih =>
    rw [sortByCode]
    exact (insertPair_perm x _).trans (List.Perm.cons x ih)

/-- The sort is ascending by code. -/
theorem sortByCode_pairwise :
    ∀ l, (sortByCode l).Pairwise (fun a b => strLe a.1 b.1 = true) := by
  intro l
  induction l with
  | nil => exact List.Pairwise.nil
  | cons x xs ih =>
    rw [sortByCode]
    exact insertPair_pairwise x _ ih

/-! Structural lemmas about the suggestion resolver. -/

/-- The text filter only narrows the candidate set. -/
theorem suggestTextFilter_subset (cfg : SuggestCfg) (q : String) (subset : List Row)
    (r : Row) (h : r ∈ suggestTextFilter cfg q subset) : r ∈ subset := by
  unfold suggestTextFilter at h
  split at h
  · exact h
  · split at h
    · exact List.mem_of_mem_filter h
    · split at h
      · exact List.mem_of_mem_filter h
      · exact List.mem_of_mem_filter h

/-- Every suggestion pair is the (code, name) projection of a candidate
row. -/
theorem mem_finishSuggestions (cfg : SuggestCfg) (subset : List Row) (pr : String × String)
    (h : pr ∈ finishSuggestions cfg subset) :
    ∃ r ∈ subset, pr = (cfg.code r, cfg.name r) := by
  unfold finishSuggestions at h
  have h1 := List.mem_of_mem_take h
  have h2 := (sortByCode_perm _).mem_iff.mp h1
  have h3 := pdDropDuplicates_subset _ _ _ h2
  obtain ⟨r, hr, hpr⟩ := List.mem_map.mp h3
  exact ⟨r, hr, hpr.symm⟩

/-- The result of the projection step is duplicate-free. -/
theorem finishSuggestions_nodup (cfg : SuggestCfg) (subset : List Row) :
    (finishSuggestions cfg subset).Nodup := by
  unfold finishSuggestions
  refine List.Nodup.sublist (List.take_sublist _ _) ?_
  exact ((sortByCode_perm _).nodup_iff).mpr (pdDropDuplicates_id_nodup _)

/-- The result of the projection step is ascending by code. -/
theorem finishSuggestions_pairwise (cfg : SuggestCfg) (subset : List Row) :
    (finishSuggestions cfg subset).Pairwise (fun a b => strLe a.1 b.1 = true) := by
  unfold finishSuggestions
  exact (sortByCode_pairwise _).sublist (List.take_sublist _ _)

/-- The result of the projection step has at most 20 entries. -/
theorem finishSuggestions_length (cfg : SuggestCfg) (subset : List Row) :
    (finishSuggestions cfg subset).length ≤ 20 := by
  unfold finishSuggestions
  exact List.length_take_le _ _

/-- Narrowing by ancestors only keeps dataset rows whose codes equal
every supplied ancestor code. -/
theorem mem_narrowByAncestors (ds : List Row) (prov kab kec : String) (r : Row)
    (h : r ∈ narrowByAncestors ds prov kab kec) :
    r ∈ ds ∧ (prov ≠ "" → r.kode_prov = prov) ∧ (kab ≠ "" → r.kode_kab = kab) ∧
      (kec ≠ "" → r.kode_kec = kec) := by
  unfold narrowByAncestors narrowKec at h
  have step1 : r ∈ narrowKab (narrowProv ds prov) kab ∧ (kec ≠ "" → r.kode_kec = kec) := by
    split at h
    · exact ⟨h, fun hne => absurd (by assumption) hne⟩
    · obtain ⟨hm, he⟩ := List.mem_filter.mp h
      exact ⟨hm, fun _ => by simpa using he⟩
  obtain ⟨h1, hkec⟩ := step1
  unfold narrowKab at h1
  have step2 : r ∈ narrowProv ds prov ∧ (kab ≠ "" → r.kode_kab = kab) := by
    split at h1
    · exact ⟨h1, fun hne => absurd (by assumption) hne⟩
    · obtain ⟨hm, he⟩ := List.mem_filter.mp h1
      exact ⟨hm, fun _ => by simpa using he⟩
  obtain ⟨h2, hkab⟩ := step2
  unfold narrowProv at h2
  have step3 : r ∈ ds ∧ (prov ≠ "" → r.kode_prov = prov) := by
    split at h2
    · exact ⟨h2, fun hne => absurd (by assumption) hne⟩
    · obtain ⟨hm, he⟩ := List.mem_filter.mp h2
      exact ⟨hm, fun _ => by simpa using he⟩
  exact ⟨step3.1, step3.2, hkab, hkec⟩

/-- Case split for get_cached_suggestions: the result is empty, or the
level is recognized and the result is the projection of the text-filtered,
ancestor-narrowed subset. -/
theorem get_cached_suggestions_cases (level query prov kab kec : String) (ds : List Row) :
    get_cached_suggestions level query prov kab kec ds = [] ∨
    ∃ cfg, suggestConfig level = some cfg ∧
      get_cached_suggestions level query prov kab kec ds
        = finishSuggestions cfg
            (suggestTextFilter cfg (pyLower (pyStrip query)) (narrowByAncestors ds prov kab kec)) := by
  unfold get_cached_suggestions
  split
  · exact Or.inl rfl
  · split
    · exact Or.inl rfl
    · cases hc : suggestConfig level with
      | none => exact Or.inl rfl
      | some cfg => exact Or.inr ⟨cfg, rfl, rfl⟩

/-- Every returned suggestion pair arises from a dataset row that passed
every supplied ancestor filter. -/
theorem mem_get_cached_suggestions (level query prov kab kec : String) (ds : List Row)
    (pr : String × String) (h : pr ∈ get_cached_suggestions level query prov kab kec ds) :
    ∃ cfg, suggestConfig level = some cfg ∧
      ∃ r ∈ narrowByAncestors ds prov kab kec, pr = (cfg.code r, cfg.name r) := by
  rcases get_cached_suggestions_cases level query prov kab kec ds with he | ⟨cfg, hc, he⟩
  · rw [he] at h
    exact absurd h (List.not_mem_nil _)
  · rw [he] at h
    obtain ⟨r, hr, hpr⟩ := mem_finishSuggestions _ _ _ h
    exact ⟨cfg, hc, r, suggestTextFilter_subset _ _ _ _ hr, hpr⟩

/-- An unrecognized level name has no configuration. -/
theorem suggestConfig_eq_none (level : String)
    (h : level ∉ (["prov", "kabupaten", "kecamatan", "desa"] : List String)) :
    suggestConfig level = none := by
  simp only [List.mem_cons, List.not_mem_nil, or_false, not_or] at h
  obtain ⟨h1, h2, h3, h4⟩ := h
  unfold suggestConfig
  rw [if_neg h1, if_neg h2, if_neg h3, if_neg h4]

/-! Structural lemmas about the result-table filter. -/

/-- apply_filter only narrows the row set. -/
theorem applyFilter_subset (df : List Row) (valIn : String) (isExact : Bool)
    (colCode colSearch : Row → String) (codeLen : Nat) (r : Row)
    (h : r ∈ applyFilter df valIn isExact colCode colSearch codeLen) : r ∈ df := by
  unfold applyFilter at h
  split at h
  · exact h
  · split at h
    · exact List.mem_of_mem_filter h
    · split at h
      · exact List.mem_of_mem_filter h
      · exact List.mem_of_mem_filter h

/-- The four-level filter chain only returns rows of the dataset. -/
theorem filterChain_subset (ds : List Row) (prov : String) (pe : Bool) (kab : String) (ke : Bool)
    (kec : String) (ce : Bool) (desa : String) (de : Bool) (r : Row)
    (h : r ∈ filterChain ds prov pe kab ke kec ce desa de) : r ∈ ds := by
  unfold filterChain at h
  exact applyFilter_subset _ _ _ _ _ _ _
    (applyFilter_subset _ _ _ _ _ _ _
      (applyFilter_subset _ _ _ _ _ _ _
        (applyFilter_subset _ _ _ _ _ _ _ h)))

/-- projectRows only returns rows of its input. -/
theorem projectRows_subset (subset : List Row) (vl : Nat) (r : Row)
    (h : r ∈ projectRows subset vl) : r ∈ subset := by
  unfold projectRows at h
  split at h
  · exact pdDropDuplicates_subset _ _ _ h
  · split at h
    · exact pdDropDuplicates_subset _ _ _ h
    · split at h
      · exact pdDropDuplicates_subset _ _ _ h
      · exact h

/-! Auxiliary lemma about zero-padding. -/

/-- zfill of an all-digit string of length at most w has length exactly
w and stays all-digit. -/
theorem pyZfill_digit (s : String) (w : Nat) (hd : pyIsDigit s = true) (hl : s.length ≤ w) :
    (pyZfill s w).length = w ∧ pyIsDigit (pyZfill s w) = true := by
  simp only [pyIsDigit, Bool.and_eq_true, Bool.not_eq_true'] at hd
  obtain ⟨hne, hall⟩ := hd
  have hhd : (s.data.headD '0').isDigit = true := by
    cases hdata : s.data with
    | nil => rfl
    | cons c rest =>
      rw [hdata] at hall
      simp only [List.all_cons, Bool.and_eq_true] at hall
      simpa using hall.1
  have hcsign : ¬(s.data.headD '0' = '+' ∨ s.data.headD '0' = '-') := by
    rintro (hp | hp) <;> rw [hp] at hhd <;> simp [Char.isDigit] at hhd
  unfold pyZfill
  rw [if_neg hcsign]
  split
  · rename_i hwle
    have hlen : s.length = w := Nat.le_antisymm hl hwle
    refine ⟨hlen, ?_⟩
    simp [pyIsDigit, hne, hall]
  · rename_i hwgt
    constructor
    · show (List.replicate (w - s.data.length) '0' ++ s.data).length = w
      rw [List.length_append, List.length_replicate]
      have hlt : s.data.length < w := Nat.lt_of_not_le hwgt
      omega
    · show pyIsDigit ⟨List.replicate (w - s.data.length) '0' ++ s.data⟩ = true
      simp only [pyIsDigit, Bool.and_eq_true, Bool.not_eq_true']
      constructor
      · have hlt : s.data.length < w := Nat.lt_of_not_le hwgt
        simp only [List.isEmpty_eq_false_iff_exists_mem]
        exact ⟨'0', List.mem_append_left _ (List.mem_replicate.mpr ⟨by omega, rfl⟩)⟩
      · have hrep : (List.replicate (w - s.data.length) '0').all Char.isDigit = true := by
          simp only [List.all_eq_true]
          intro a ha
          rw [List.eq_of_mem_replicate ha]
          rfl
        rw [List.all_append, hrep, hall]
        rfl

/-! Claim theorems. -/

/-- C1: in the result-table filter, an all-digit input whose length
equals the level's code width is an exact code-equality match regardless
of the exact flag, while an all-digit input of non-matching width (with
the loose flag) is matched as a substring of the lowercase name column,
returning no rows unless a name contains it. -/
theorem applyFilter_digit_width_dispatch (df : List Row) (val : String) (isExact : Bool)
    (colCode colSearch : Row → String) (codeLen : Nat)
    (hd : pyIsDigit val = true) (hlen : val.length ≤ 50) :
    (val.length = codeLen →
      applyFilter df val isExact colCode colSearch codeLen
        = df.filter (fun r => colCode r == val))
    ∧ (val.length ≠ codeLen → isExact = false →
      applyFilter df val isExact colCode colSearch codeLen
        = df.filter (fun r => pyIn (pyLower val) (colSearch r)))
    ∧ (val.length ≠ codeLen → isExact = false →
        (∀ r ∈ df, pyIn (pyLower val) (colSearch r) = false) →
      applyFilter df val isExact colCode colSearch codeLen = []) := by
  have hne : val ≠ "" := pyIsDigit_ne_empty val hd
  have htr : pyTrunc val 50 = val := pyTrunc_of_le val 50 hlen
  unfold applyFilter
  rw [if_neg hne, htr]
  refine ⟨?_, ?_, ?_⟩
  · intro hw
    rw [if_pos ⟨hd, hw⟩]
  · intro hw hex
    rw [if_neg (fun hc => hw hc.2), hex]
    simp
  · intro hw hex hnone
    rw [if_neg (fun hc => hw hc.2), hex]
    simp only [Bool.false_eq_true, if_false]
    refine List.filter_eq_nil_iff.mpr ?_
    intro r hr
    simp [hnone r hr]

/-- Witness for C1: the width-2 digit input "31" filters by code
equality even with the exact flag set, and the width-1 digit input "3"
filters by lowercase-name containment. -/
theorem applyFilter_digit_width_dispatch_witness :
    applyFilter dsDigits "31" true Row.kode_prov Row.search_prov 2
      = dsDigits.filter (fun r => r.kode_prov == "31")
    ∧ applyFilter dsDigits "3" false Row.kode_prov Row.search_prov 2
      = dsDigits.filter (fun r => pyIn (pyLower "3") (r.search_prov)) :=
  ⟨(applyFilter_digit_width_dispatch dsDigits "31" true Row.kode_prov Row.search_prov 2
      (by decide) (by decide)).1 (by decide),
   (applyFilter_digit_width_dispatch dsDigits "3" false Row.kode_prov Row.search_prov 2
      (by decide) (by decide)).2.1 (by decide) rfl⟩

/-- C9: the result-table call on an empty (failed-to-load) dataset
returns the "no dataset loaded" outcome; with a loaded dataset and all
four level inputs empty it returns the distinguished "awaiting input"
outcome (never a row list and never "no matches"); the suggestion
endpoint on an empty dataset returns the empty list. -/
theorem api_search_table_status_guards (ds : List Row) (prov : String) (pe : Bool)
    (kab : String) (ke : Bool) (kec : String) (ce : Bool) (desa : String) (de : Bool)
    (expand : Bool) (level query p2 k2 c2 : String) :
    (ds = [] → api_search_table ds prov pe kab ke kec ce desa de expand = .noDataset)
    ∧ (ds ≠ [] → prov = "" → kab = "" → kec = "" → desa = "" →
        api_search_table ds prov pe kab ke kec ce desa de expand = .awaitingInput)
    ∧ get_cached_suggestions level query p2 k2 c2 [] = [] := by
  refine ⟨?_, ?_, ?_⟩
  · intro h
    unfold api_search_table
    rw [if_pos h]
  · intro hne h1 h2 h3 h4
    unfold api_search_table
    rw [if_neg hne, if_pos ⟨h1, h2, h3, h4⟩]
  · rfl

/-- Witness for C9: an empty dataset yields noDataset even with input
supplied, and empty criteria over a loaded dataset yield awaitingInput. -/
theorem api_search_table_status_guards_witness :
    api_search_table [] "31" false "" false "" false "" false false = .noDataset
    ∧ api_search_table dsSample "" false "" false "" false "" false false = .awaitingInput :=
  ⟨(api_search_table_status_guards [] "31" false "" false "" false "" false false
      "prov" "" "" "" "").1 rfl,
   (api_search_table_status_guards dsSample "" false "" false "" false "" false false
      "prov" "" "" "" "").2.1 (by decide) rfl rfl rfl rfl⟩

/-- C10: every suggestion result is duplicate-free, sorted ascending by
code in lexicographic order, and holds at most 20 entries; an
unrecognized level name yields the empty list. -/
theorem get_cached_suggestions_result_shape (level query prov kab kec : String)
    (ds : List Row) :
    (get_cached_suggestions level query prov kab kec ds).Nodup
    ∧ (get_cached_suggestions level query prov kab kec ds).Pairwise
        (fun a b => strLe a.1 b.1 = true)
    ∧ (get_cached_suggestions level query prov kab kec ds).length ≤ 20
    ∧ (level ∉ (["prov", "kabupaten", "kecamatan", "desa"] : List String) →
        get_cached_suggestions level query prov kab kec ds = []) := by
  rcases get_cached_suggestions_cases level query prov kab kec ds with he | ⟨cfg, hc, he⟩
  · rw [he]
    exact ⟨List.nodup_nil, List.Pairwise.nil, by simp, fun _ => rfl⟩
  · rw [he]
    refine ⟨finishSuggestions_nodup _ _, finishSuggestions_pairwise _ _,
      finishSuggestions_length _ _, ?_⟩
    intro hl
    have hnone := suggestConfig_eq_none level hl
    rw [hnone] at hc
    exact Option.noConfusion hc

/-- Witness for C10: an unrecognized level name returns the empty list. -/
theorem get_cached_suggestions_result_shape_witness :
    get_cached_suggestions "kelurahan" "ja" "" "" "" dsSample = [] :=
  (get_cached_suggestions_result_shape "kelurahan" "ja" "" "" "" dsSample).2.2.2 (by decide)

/-- C5: suggestion resolution starts from the full row set and narrows
by each supplied ancestor code via exact equality (an empty ancestor
imposes no constraint); an empty narrowed set yields the empty list, and
district (kecamatan) suggestions scoped under a province code only ever
come from rows of that province. -/
theorem get_cached_suggestions_ancestor_scope (level query prov kab kec : String)
    (ds : List Row) :
    (narrowByAncestors ds prov kab kec = [] →
      get_cached_suggestions level query prov kab kec ds = [])
    ∧ (prov ≠ "" → ∀ pr ∈ get_cached_suggestions "kecamatan" query prov kab kec ds,
        ∃ r ∈ ds, r.kode_prov = prov ∧ pr = (r.kode_kec, r.kec_nama)) := by
  constructor
  · intro h
    unfold get_cached_suggestions
    rw [if_pos h]
    split <;> rfl
  · intro hp pr hpr
    obtain ⟨cfg, hc, r, hr, hpr2⟩ := mem_get_cached_suggestions _ _ _ _ _ _ _ hpr
    have hcfg : suggestConfig "kecamatan"
        = some ⟨Row.kode_kec, Row.kec_nama, Row.search_kec⟩ := rfl
    rw [hcfg] at hc
    cases Option.some.inj hc
    obtain ⟨hds, hprov, _, _⟩ := mem_narrowByAncestors _ _ _ _ _ hr
    exact ⟨r, hds, hprov hp, hpr2⟩

/-- Witness for C5: narrowing by the absent province code 99 yields the
empty list, and the one district suggestion under province 31 comes from
a row of province 31. -/
theorem get_cached_suggestions_ancestor_scope_witness :
    get_cached_suggestions "kecamatan" "cilandak" "99" "" "" dsSample = []
    ∧ ∃ r ∈ dsSample, r.kode_prov = "31"
        ∧ (("001", "CILANDAK") : String × String) = (r.kode_kec, r.kec_nama) :=
  ⟨(get_cached_suggestions_ancestor_scope "kecamatan" "cilandak" "99" "" "" dsSample).1
      (by decide),
   (get_cached_suggestions_ancestor_scope "kecamatan" "cilandak" "31" "" "" dsSample).2
      (by decide) ("001", "CILANDAK") (by decide)⟩

/-- C6 counterexample: province suggestions are not the same when a
regency code is supplied, so ancestor codes at or below the requested
level are not ignored. -/
theorem get_cached_suggestions_prov_narrowed_by_kab_cex :
    get_cached_suggestions "prov" "" "" "02" "" dsSample
      ≠ get_cached_suggestions "prov" "" "" "" "" dsSample := by decide

/-- C6 amended: every supplied ancestor code (province, regency,
district) constrains the candidate set by exact equality regardless of
the requested level, including codes at or below that level. -/
theorem get_cached_suggestions_all_ancestors_constrain (level query prov kab kec : String)
    (ds : List Row) :
    ∀ pr ∈ get_cached_suggestions level query prov kab kec ds,
      ∃ cfg, suggestConfig level = some cfg ∧
        ∃ r ∈ ds, (prov ≠ "" → r.kode_prov = prov) ∧ (kab ≠ "" → r.kode_kab = kab) ∧
          (kec ≠ "" → r.kode_kec = kec) ∧ pr = (cfg.code r, cfg.name r) := by
  intro pr hpr
  obtain ⟨cfg, hc, r, hr, hpr2⟩ := mem_get_cached_suggestions _ _ _ _ _ _ _ hpr
  obtain ⟨hds, h1, h2, h3⟩ := mem_narrowByAncestors _ _ _ _ _ hr
  exact ⟨cfg, hc, r, hds, h1, h2, h3, hpr2⟩

/-- Witness for C6: the single province suggestion computed under the
regency code 02 comes from a row whose regency code is 02. -/
theorem get_cached_suggestions_all_ancestors_constrain_witness :
    ∃ cfg, suggestConfig "prov" = some cfg ∧
      ∃ r ∈ dsSample, (("" : String) ≠ "" → r.kode_prov = "") ∧
        (("02" : String) ≠ "" → r.kode_kab = "02") ∧ (("" : String) ≠ "" → r.kode_kec = "") ∧
        (("32", "JAWA BARAT") : String × String) = (cfg.code r, cfg.name r) :=
  get_cached_suggestions_all_ancestors_constrain "prov" "" "" "02" "" dsSample
    ("32", "JAWA BARAT") (by decide)

/-- C2: the view projector reports the total captured before truncation,
returns exactly min(total, 100) rows, and sets the truncation flag
exactly when the total exceeds 100; in particular a filter matching 150
rows at the chosen view level returns exactly 100 rows with the flag
set. -/
theorem api_search_table_limit (ds : List Row) (prov : String) (pe : Bool) (kab : String)
    (ke : Bool) (kec : String) (ce : Bool) (desa : String) (de : Bool) (expand : Bool)
    (res : SearchResult)
    (hres : res = api_search_table ds prov pe kab ke kec ce desa de expand) :
    (resultRows res).length = min (resultTotal res) LIMIT
    ∧ (resultTrunc res = true ↔ LIMIT < resultTotal res)
    ∧ (resultTotal res = 150 → (resultRows res).length = 100 ∧ resultTrunc res = true) := by
  subst hres
  unfold api_search_table
  split
  · refine ⟨by simp [resultRows, resultTotal], by simp [resultTrunc, resultTotal], ?_⟩
    intro h
    simp [resultTotal] at h
  · split
    · refine ⟨by simp [resultRows, resultTotal], by simp [resultTrunc, resultTotal], ?_⟩
      intro h
      simp [resultTotal] at h
    · split
      · refine ⟨by simp [resultRows, resultTotal], by simp [resultTrunc, resultTotal], ?_⟩
        intro h
        simp [resultTotal] at h
      · refine ⟨?_, ?_, ?_⟩
        · simp only [resultRows, resultTotal, LIMIT]
          rw [List.length_take]
          exact Nat.min_comm _ _
        · simp only [resultTrunc, resultTotal]
          simp
        · intro h
          simp only [resultTotal] at h
          simp only [resultRows, resultTrunc, LIMIT] at h ⊢
          rw [List.length_take, h]
          refine ⟨by norm_num, by norm_num⟩

set_option maxRecDepth 40000 in
/-- Witness for C2: a dataset of 150 matching village rows yields
exactly 100 returned rows with the truncation flag set. -/
theorem api_search_table_limit_witness :
    (resultRows (api_search_table ds150 "" false "" false "" false "desa" false false)).length
        = 100
    ∧ resultTrunc (api_search_table ds150 "" false "" false "" false "desa" false false)
        = true :=
  (api_search_table_limit ds150 "" false "" false "" false "desa" false false _ rfl).2.2
    (by decide)

/-- A two-row dataset sharing one (province, regency) code pair. -/
def dsShared : List Row := [rowJakarta, rowJakarta2]

/-- C3 counterexample: at view level 4 no deduplication is applied, so a
dataset holding the same village row twice returns it twice, with the
full composite code key duplicated. -/
theorem api_search_table_view4_no_dedup_cex :
    resultViewLevel (api_search_table dsDup "" false "" false "" false "barat" false false) = 4
    ∧ ¬ ((resultRows (api_search_table dsDup "" false "" false "" false "barat" false false)).map
          (fun r => (r.kode_prov, r.kode_kab, r.kode_kec, r.kode_desa))).Nodup := by decide

/-- C3 amended: projected rows are deduplicated on the composite code
key from province down to the view level for view levels 1-3, while view
level 4 returns the filtered rows without deduplication; in particular
at view level 2 a dataset whose rows all share one (province, regency)
code pair collapses to exactly one output row. -/
theorem api_search_table_dedup_levels (ds : List Row) (prov : String) (pe : Bool)
    (kab : String) (ke : Bool) (kec : String) (ce : Bool) (desa : String) (de : Bool)
    (expand : Bool) (res : SearchResult)
    (hres : res = api_search_table ds prov pe kab ke kec ce desa de expand) :
    (resultViewLevel res = 1 → ((resultRows res).map (fun r => r.kode_prov)).Nodup)
    ∧ (resultViewLevel res = 2 →
        ((resultRows res).map (fun r => (r.kode_prov, r.kode_kab))).Nodup)
    ∧ (resultViewLevel res = 3 →
        ((resultRows res).map (fun r => (r.kode_prov, r.kode_kab, r.kode_kec))).Nodup)
    ∧ (∀ p k, desa = "" → kec = "" → kab ≠ "" → expand = false →
        (∀ r ∈ ds, r.kode_prov = p ∧ r.kode_kab = k) →
        resultRows res ≠ [] → (resultRows res).length = 1) := by
  subst hres
  unfold api_search_table
  split
  · refine ⟨by simp [resultViewLevel], by simp [resultViewLevel], by simp [resultViewLevel], ?_⟩
    intro p k _ _ _ _ _ hne
    simp [resultRows] at hne
  · split
    · refine ⟨by simp [resultViewLevel], by simp [resultViewLevel], by simp [resultViewLevel], ?_⟩
      intro p k _ _ _ _ _ hne
      simp [resultRows] at hne
    · split
      · refine ⟨by simp [resultViewLevel], by simp [resultViewLevel], by simp [resultViewLevel], ?_⟩
        intro p k _ _ _ _ _ hne
        simp [resultRows] at hne
      · rename_i hds hcrit hchain
        refine ⟨?_, ?_, ?_, ?_⟩
        · intro hvl
          simp only [resultViewLevel] at hvl
          simp only [resultRows]
          rw [hvl]
          have hpr : projectRows (filterChain ds prov pe kab ke kec ce desa de) 1
              = pdDropDuplicates (fun r => r.kode_prov)
                  (filterChain ds prov pe kab ke kec ce desa de) := rfl
          rw [hpr]
          exact List.Nodup.sublist (List.Sublist.map _ (List.take_sublist _ _))
            (pdDropDuplicates_map_key_nodup _ _)
        · intro hvl
          simp only [resultViewLevel] at hvl
          simp only [resultRows]
          rw [hvl]
          have hpr : projectRows (filterChain ds prov pe kab ke kec ce desa de) 2
              = pdDropDuplicates (fun r => (r.kode_prov, r.kode_kab))
                  (filterChain ds prov pe kab ke kec ce desa de) := rfl
          rw [hpr]
          exact List.Nodup.sublist (List.Sublist.map _ (List.take_sublist _ _))
            (pdDropDuplicates_map_key_nodup _ _)
        · intro hvl
          simp only [resultViewLevel] at hvl
          simp only [resultRows]
          rw [hvl]
          have hpr : projectRows (filterChain ds prov pe kab ke kec ce desa de) 3
              = pdDropDuplicates (fun r => (r.kode_prov, r.kode_kab, r.kode_kec))
                  (filterChain ds prov pe kab ke kec ce desa de) := rfl
          rw [hpr]
          exact List.Nodup.sublist (List.Sublist.map _ (List.take_sublist _ _))
            (pdDropDuplicates_map_key_nodup _ _)
        · intro p k hdesa hkec hkab hex hkey _
          have hvl : viewLevelOf prov kab kec desa expand = 2 := by
            unfold viewLevelOf
            simp [hdesa, hkec, hkab, hex]
          simp only [resultRows]
          rw [hvl]
          have hpr : projectRows (filterChain ds prov pe kab ke kec ce desa de) 2
              = pdDropDuplicates (fun r => (r.kode_prov, r.kode_kab))
                  (filterChain ds prov pe kab ke kec ce desa de) := rfl
          rw [hpr]
          have hlen : (pdDropDuplicates (fun r => (r.kode_prov, r.kode_kab))
              (filterChain ds prov pe kab ke kec ce desa de)).length = 1 := by
            refine pdDropDuplicates_const _ (p, k) _ hchain ?_
            intro a ha
            obtain ⟨h1, h2⟩ := hkey a (filterChain_subset _ _ _ _ _ _ _ _ _ _ ha)
            rw [h1, h2]
          rw [List.length_take, hlen]
          decide

/-- Witness for C3: two village rows sharing (31, 01) collapse to one
output row at view level 2. -/
theorem api_search_table_dedup_levels_witness :
    (resultRows (api_search_table dsShared "" false "01" false "" false "" false false)).length
      = 1 :=
  (api_search_table_dedup_levels dsShared "" false "01" false "" false "" false false _
    rfl).2.2.2 "31" "01" rfl rfl (by decide) rfl (by decide) (by decide)

/-- A raw record whose province code is three digits wide. -/
def rawBad : RawRow := ⟨"123", "01", "001", "001", "PROVINSI", "KAB", "KEC", "DESA"⟩

/-- A raw record with padded and short all-digit codes. -/
def rawGood : RawRow :=
  ⟨" 31", "1", "001", "1", "DKI JAKARTA", "JAKARTA SELATAN", "CILANDAK", "CILANDAK BARAT"⟩

/-- C8 counterexample: the raw province code "123" survives loading with
length 3, so loaded codes are not always two-character numeric strings. -/
theorem load_data_overlong_code_cex :
    ((load_data [rawBad]).all (fun r => decide (r.kode_prov.length = 2)
        && r.kode_prov.data.all Char.isDigit)) = false := by decide

/-- C8 amended: loading strips and left-zero-pads each code column to
the level's width, so whenever every raw code value after trimming is an
all-digit string no longer than that width, every loaded row carries
fixed-width all-digit codes of widths 2, 2, 3, 3. -/
theorem load_data_codes_fixed_width (raws : List RawRow)
    (h : ∀ raw ∈ raws,
      (pyIsDigit (pyStrip raw.kode_prov) = true ∧ (pyStrip raw.kode_prov).length ≤ 2) ∧
      (pyIsDigit (pyStrip raw.kode_kab) = true ∧ (pyStrip raw.kode_kab).length ≤ 2) ∧
      (pyIsDigit (pyStrip raw.kode_kec) = true ∧ (pyStrip raw.kode_kec).length ≤ 3) ∧
      (pyIsDigit (pyStrip raw.kode_desa) = true ∧ (pyStrip raw.kode_desa).length ≤ 3)) :
    ∀ r ∈ load_data raws,
      (r.kode_prov.length = 2 ∧ pyIsDigit r.kode_prov = true) ∧
      (r.kode_kab.length = 2 ∧ pyIsDigit r.kode_kab = true) ∧
      (r.kode_kec.length = 3 ∧ pyIsDigit r.kode_kec = true) ∧
      (r.kode_desa.length = 3 ∧ pyIsDigit r.kode_desa = true) := by
  intro r hr
  obtain ⟨raw, hraw, rfl⟩ := List.mem_map.mp hr
  obtain ⟨⟨h1, h1l⟩, ⟨h2, h2l⟩, ⟨h3, h3l⟩, ⟨h4, h4l⟩⟩ := h raw hraw
  exact ⟨pyZfill_digit _ 2 h1 h1l, pyZfill_digit _ 2 h2 h2l,
    pyZfill_digit _ 3 h3 h3l, pyZfill_digit _ 3 h4 h4l⟩

/-- Witness for C8: the raw codes " 31", "1", "001", "1" load as "31",
"01", "001", "001". -/
theorem load_data_codes_fixed_width_witness :
    ((loadRow rawGood).kode_prov.length = 2 ∧ pyIsDigit (loadRow rawGood).kode_prov = true) ∧
    ((loadRow rawGood).kode_kab.length = 2 ∧ pyIsDigit (loadRow rawGood).kode_kab = true) ∧
    ((loadRow rawGood).kode_kec.length = 3 ∧ pyIsDigit (loadRow rawGood).kode_kec = true) ∧
    ((loadRow rawGood).kode_desa.length = 3 ∧ pyIsDigit (loadRow rawGood).kode_desa = true) :=
  load_data_codes_fixed_width [rawGood] (by decide) (loadRow rawGood) (by decide)
